import Mathlib

/-!
Shallow embedding of the SaveVideo module (src/Modules/SaveVideo/SaveVideo.C)
of the jevoisbase repository.

The module couples a real-time acquisition path (SaveVideo::process) with a
background encoder worker (SaveVideo::run) through a FIFO frame queue
(itsBuf). Frames are cv::Mat values; the default-constructed empty cv::Mat is
the end-of-stream sentinel. The worker lazily opens a cv::VideoWriter on the
first real frame of a session, probing candidate file names built from the
filename template and the file sequence counter (itsFileNum) until it finds
one that does not exist on disk, writes frames in pop order, and closes the
file when it pops the sentinel; after each inner-loop exit itsFileNum is
incremented by one.

The queue itsBuf is a jevois::BoundedBuffer from the jevois core framework,
whose implementation is not part of this repository's sources; it is modelled
from the spec (section 4.1) as a FIFO list: push appends at the tail and
always succeeds, pop takes the head and blocks when the queue is empty, and
filled_size is the length.
-/

namespace SaveVideo

/-- A cv::Mat is modelled as its pixel data; the default-constructed empty
cv::Mat (the end-of-stream sentinel) is the empty list, and Mat::empty() is
List.isEmpty. -/
abbrev Mat := List Nat

/-- The sentinel cv::Mat() pushed by parseSerial on stop and by postUninit. -/
def emptyMat : Mat := []

/-- Effect of one call to SaveVideo::process on the queue. -/
inductive ProcEffect where
  | pushed
  | dropped
  | ignored
deriving DecidableEq

/-- Result of one call to SaveVideo::process: the new queue content, what
happened to the frame, and the error messages logged. -/
structure ProcOut where
  buf : List Mat
  eff : ProcEffect
  log : List String
deriving DecidableEq

/-- Embedding of SaveVideo::process (lines 137-166 and 171-185): when
itsSaving is set, the converted frame is pushed unless the queue holds more
than 1000 frames, in which case it is dropped with an LERROR message; when
itsSaving is clear the queue is untouched and the frame is only used for the
pass-through display. The push itself is modelled from the spec: the
BoundedBuffer's push inserts at the tail and always succeeds. -/
def process (saving : Bool) (buf : List Mat) (im : Mat) : ProcOut :=
  if saving then
    if buf.length > 1000 then
      ⟨buf, .dropped, ["Image queue too large, video writer cannot keep up - DROPPING FRAME"]⟩
    else
      ⟨buf ++ [im], .pushed, []⟩
  else
    ⟨buf, .ignored, []⟩

/-- Queue content after a sequence of process calls with itsSaving set. -/
def pushAll (ims : List Mat) (buf : List Mat) : List Mat :=
  ims.foldl (fun b im => (process true b im).buf) buf

/-- Embedding of SaveVideo::parseSerial (lines 190-216): start sets itsSaving
and acknowledges; stop clears itsSaving, acknowledges, and pushes the empty
sentinel frame (the subsequent drain wait is modelled separately as the
stop/worker interleaving machine below); any other command raises
std::runtime_error, modelled as none. Returns the new itsSaving value, the
new queue content and the serial messages sent. -/
def parseSerial (str : String) (_saving : Bool) (buf : List Mat) :
    Option (Bool × List Mat × List String) :=
  if str = "start" then some (true, buf, ["SAVESTART"])
  else if str = "stop" then some (false, buf ++ [emptyMat], ["SAVESTOP"])
  else none

/-- The PATHPREFIX macro "/jevois/data/savevideo/" of the source. -/
def dataDir : String := "/jevois/data/savevideo/"

/-- Decimal rendering of the file number padded with zeros to width six, as
the %06d directive of the default filename template renders it through
snprintf. -/
def format06 (n : Nat) : String :=
  let s := toString n
  String.mk (List.replicate (6 - s.length) '0' ++ s.data)

/-- Substitution of the single printf int directive of the filename template:
the first occurrence of %06d (the directive of the default template
"video%06d.avi") is replaced by the zero-padded number. -/
def substDirective : List Char → Nat → List Char
  | [], _ => []
  | '%' :: '0' :: '6' :: 'd' :: rest, n => (format06 n).data ++ rest
  | c :: rest, n => c :: substDirective rest n

/-- Embedding of std::snprintf(tmp, 2047, fn.c_str(), itsFileNum) for a
template holding one %06d directive. -/
def snprintf6 (fn : String) (n : Nat) : String :=
  String.mk (substDirective fn.data n)

/-- Line 255: if the configured filename is relative (does not start with a
slash), PATHPREFIX is prepended. -/
def resolvePath (fn : String) : String :=
  if fn.data.head? = some '/' then fn else dataDir ++ fn

/-- Embedding of the file-number probing loop (lines 262-269): starting from
the current itsFileNum, candidate names are tested for existence (the
ifstream open check, modelled as membership in the list of files on disk) and
itsFileNum is incremented past each collision; the first free name is chosen.
The source loop is unbounded; it is run here on fuel, none standing for a
probing loop that never finds a free name. -/
def probe (fs : List String) (name : Nat → String) : Nat → Nat → Option (String × Nat)
  | 0, _ => none
  | fuel + 1, k =>
    if fs.contains (name k) then probe fs name fuel (k + 1)
    else some (name k, k)

/-- Probing with enough fuel to visit fs.length + 1 candidates, which by
pigeonhole suffices whenever the template renders distinct numbers to
distinct names. -/
def probeFrom (fs : List String) (name : Nat → String) (k : Nat) : Option (String × Nat) :=
  probe fs name (fs.length + 1) k

/-- State owned by the worker thread: itsFileNum, itsFilename, the set of
files existing on disk, and ghost trails of the frames handed to the encoder,
the files finalized, and the serial messages sent. -/
structure WorkerState where
  fileNum : Nat
  filename : String
  fs : List String
  written : List Mat
  files : List String
  serial : List String
deriving DecidableEq

/-- Worker state at module construction: itsFileNum = 0, itsFilename empty,
nothing written yet. -/
def initState : WorkerState :=
  { fileNum := 0, filename := "", fs := [], written := [], files := [],
    serial := [] }

/-- Lines 279-282: writer << im, then the periodic SAVEDNUM report every 100
frames; f is the frame counter value after the ++frame of line 282. -/
def writeFrame (s : WorkerState) (f : Nat) (im : Mat) : WorkerState :=
  { s with written := s.written ++ [im],
           serial := if f % 100 = 0 then s.serial ++ ["SAVEDNUM " ++ toString f]
                     else s.serial }

/-- State change of a successful Session-Open: the probe assigned itsFilename
and left itsFileNum at the free index (lines 265-268), the writer open
created the file on disk (line 272), and the SAVETO report was sent
(line 275). -/
def openState (s : WorkerState) (nm : String) (k : Nat) : WorkerState :=
  { s with fileNum := k, filename := nm, fs := s.fs ++ [nm],
           serial := s.serial ++ ["SAVETO " ++ nm] }

/-- Outcome of one pass of the worker's inner while loop (lines 237-283) over
a finite list of queue items: the sentinel was popped and the writer went out
of scope (closed), the queue ran dry and the worker is blocked in pop
(starved), or LFATAL was raised (fatal). -/
inductive SessionResult where
  | closed (s : WorkerState) (rest : List Mat)
  | starved (s : WorkerState) (wOpen : Bool)
  | fatal (s : WorkerState) (msg : String)
deriving DecidableEq

/-- Embedding of the worker's inner while loop (lines 237-283), consuming the
given queue items in FIFO order. cfg is the filename parameter, ok tells
whether cv::VideoWriter::open succeeds. On a popped empty frame the loop
breaks and the writer destructor finalizes the file when one was opened. On a
real frame with no writer open, Session-Open runs: the empty-filename check
(line 254), the PATHPREFIX resolution (line 255), the directory creation
(line 258, best-effort and ignored, not modelled), the file-number probing
(lines 262-269, which assigns itsFilename and advances itsFileNum past
collisions), then the encoder open (line 272, fatal on failure, the file
being created on disk on success) and the SAVETO report (line 275); then the
frame is written. With the writer open the frame is simply written. -/
def runSession (cfg : String) (ok : Bool) :
    WorkerState → Bool → Nat → List Mat → SessionResult
  | s, wOpen, _, [] => .starved s wOpen
  | s, wOpen, frame, im :: rest =>
    if im.isEmpty then
      .closed (if wOpen then { s with files := s.files ++ [s.filename] } else s) rest
    else
      if wOpen then
        runSession cfg ok (writeFrame s (frame + 1) im) true (frame + 1) rest
      else if cfg = "" then
        .fatal s "Cannot save to an empty filename"
      else
        match probeFrom s.fs (snprintf6 (resolvePath cfg)) s.fileNum with
        | none => .fatal s "filename probing never finds a free name"
        | some (nm, k) =>
          if ok then
            runSession cfg ok (writeFrame (openState s nm k) (frame + 1) im) true
              (frame + 1) rest
          else
            .fatal { s with fileNum := k, filename := nm }
              ("Failed to open video encoder for file [" ++ nm ++ "]")

/-- Outcome of the worker's outer while loop (lines 230-287) run on fuel
counting how many sessions the running flag still allows: the worker is
blocked in pop awaiting more items, LFATAL escaped, or the fuel ran out with
the given items still pending. -/
inductive RunResult where
  | blocked (s : WorkerState) (wOpen : Bool)
  | fatalR (s : WorkerState) (msg : String)
  | out (s : WorkerState) (pending : List Mat)
deriving DecidableEq

/-- Embedding of the worker's outer while loop (lines 230-287): each
iteration starts a fresh writer and frame counter, runs the inner loop, and
on inner-loop exit increments itsFileNum by one (line 286). -/
def runOuter (cfg : String) (ok : Bool) : Nat → WorkerState → List Mat → RunResult
  | 0, s, items => .out s items
  | fuel + 1, s, items =>
    match runSession cfg ok s false 0 items with
    | .starved s2 w => .blocked s2 w
    | .fatal s2 m => .fatalR s2 m
    | .closed s2 rest =>
      runOuter cfg ok fuel { s2 with fileNum := s2.fileNum + 1 } rest

/-- Worker state reached by the inner loop, whatever its outcome. -/
def SessionResult.stateOf : SessionResult → WorkerState
  | .closed s _ => s
  | .starved s _ => s
  | .fatal s _ => s

/-- Frames handed to the encoder so far, in order. -/
def SessionResult.writtenOf (r : SessionResult) : List Mat := r.stateOf.written

/-- Value of itsFileNum reached by the inner loop. -/
def SessionResult.fileNumOf (r : SessionResult) : Nat := r.stateOf.fileNum

/-- Worker state reached by the outer loop, whatever its outcome. -/
def RunResult.stateOf : RunResult → WorkerState
  | .blocked s _ => s
  | .fatalR s _ => s
  | .out s _ => s

/-- Value of itsFileNum reached by the outer loop. -/
def RunResult.fileNumOf (r : RunResult) : Nat := r.stateOf.fileNum

/-- Files finalized by the outer loop so far, in order. -/
def RunResult.filesOf (r : RunResult) : List String := r.stateOf.files

/-!
Interleaving machine for the stop drain handshake. The stop branch of
parseSerial (lines 197-214) pushes the sentinel and then polls
itsBuf.filled_size() every 200 ms until it reaches zero, while the worker
thread concurrently pops items; the writer destructor that finalizes the file
runs only when the worker leaves the inner loop (line 285). Each transition
below is one atomic action of one of the two threads and the scheduler picks
which thread moves.
-/

/-- Control points of the worker thread inside its loops: blocked in or
returning from pop (line 240), holding a popped item at the emptiness test
(line 243), at the inner-loop exit where the writer destructor runs and
itsFileNum is incremented (lines 285-286), or back at the outer loop head. -/
inductive WPC where
  | atPop
  | atCheck (im : Mat)
  | atClose
  | idle
deriving DecidableEq

/-- Control points of the thread executing the stop branch of parseSerial:
about to push the sentinel (line 203), polling filled_size in the wait loop
(lines 206-210), or returned from parseSerial. -/
inductive SPC where
  | beforePush
  | polling
  | returned
deriving DecidableEq

/-- Joint state of the queue, the worker thread and the stop handler.
finalized records whether the writer destructor has completed for the
session's open file. -/
structure Sys where
  buf : List Mat
  wpc : WPC
  writerOpen : Bool
  finalized : Bool
  spc : SPC
deriving DecidableEq

/-- One atomic action of the worker thread: pop the head when one is there
(staying blocked on an empty queue), test the popped item and either break to
the close point on the sentinel or write the frame (opening the writer when
needed) and return to pop, or complete the inner-loop exit, destroying the
writer and finalizing the file. -/
def workerStep (s : Sys) : Sys :=
  match s.wpc with
  | .atPop =>
    match s.buf with
    | [] => s
    | im :: rest => { s with buf := rest, wpc := .atCheck im }
  | .atCheck im =>
    if im.isEmpty then { s with wpc := .atClose }
    else { s with writerOpen := true, wpc := .atPop }
  | .atClose => { s with writerOpen := false, finalized := true, wpc := .idle }
  | .idle => s

/-- One atomic action of the stop handler: push the sentinel, or poll the
fill level once, returning when it is zero. -/
def stopStep (s : Sys) : Sys :=
  match s.spc with
  | .beforePush => { s with buf := s.buf ++ [emptyMat], spc := .polling }
  | .polling => if s.buf = [] then { s with spc := .returned } else s
  | .returned => s

/-- One scheduler choice: true runs the worker, false runs the stop handler. -/
def sysStep (b : Bool) (s : Sys) : Sys :=
  if b then workerStep s else stopStep s

/-- Run of the two threads under a given schedule. -/
def runSys : List Bool → Sys → Sys
  | [], s => s
  | b :: bs, s => runSys bs (sysStep b s)

end SaveVideo

namespace SaveVideo

/-- Soundness of the probing loop: a returned name is free on disk, is the
rendering of the returned index, and the index never moved backwards. -/
theorem probe_spec (fs : List String) (name : Nat → String) :
    ∀ (fuel k : Nat) (nm : String) (k2 : Nat),
      probe fs name fuel k = some (nm, k2) →
      fs.contains nm = false ∧ nm = name k2 ∧ k ≤ k2 := by
  intro fuel
  induction fuel with
  | zero => intro k nm k2 h; simp [probe] at h
  | succ n ih =>
    intro k nm k2 h
    simp only [probe] at h
    by_cases hc : fs.contains (name k) = true
    · rw [if_pos hc] at h
      obtain ⟨h1, h2, h3⟩ := ih (k + 1) nm k2 h
      exact ⟨h1, h2, by omega⟩
    · rw [if_neg hc] at h
      simp only [Option.some.injEq, Prod.mk.injEq] at h
      obtain ⟨h1, h2⟩ := h
      subst h1; subst h2
      exact ⟨by simpa using hc, rfl, le_refl k⟩

/-- probeFrom inherits the probing loop's soundness. -/
theorem probeFrom_spec (fs : List String) (name : Nat → String) (k : Nat)
    (nm : String) (k2 : Nat) (h : probeFrom fs name k = some (nm, k2)) :
    fs.contains nm = false ∧ nm = name k2 ∧ k ≤ k2 :=
  probe_spec fs name (fs.length + 1) k nm k2 h

end SaveVideo

namespace SaveVideo

/-- Queue behavior of the acquisition path: as long as the fill level stays
at or under the soft capacity, every processed frame is appended, none
dropped. -/
theorem pushAll_no_drop :
    ∀ (ims buf : List Mat), buf.length + ims.length ≤ 1001 →
      pushAll ims buf = buf ++ ims := by
  intro ims
  induction ims with
  | nil => intro buf _; simp [pushAll]
  | cons im ims ih =>
    intro buf h
    have hlen : ¬ (buf.length > 1000) := by
      simp only [List.length_cons] at h; omega
    have hb : (process true buf im).buf = buf ++ [im] := by
      simp [process, hlen]
    have hstep : pushAll (im :: ims) buf = pushAll ims (buf ++ [im]) := by
      simp only [pushAll, List.foldl_cons, hb]
    rw [hstep, ih (buf ++ [im]) (by simp only [List.length_append,
      List.length_cons, List.length_nil] at h ⊢; omega)]
    simp

/-- Once the writer is open, the inner loop writes every queued frame in
order until the sentinel, then closes the session file; itsFileNum, the disk
and itsFilename are untouched. -/
theorem runSession_open_spec (cfg : String) (ok : Bool) :
    ∀ (ims : List Mat) (s : WorkerState) (f : Nat) (rest : List Mat),
      (∀ m ∈ ims, m.isEmpty = false) →
      ∃ s2, runSession cfg ok s true f (ims ++ emptyMat :: rest) = .closed s2 rest ∧
        s2.written = s.written ++ ims ∧ s2.fileNum = s.fileNum ∧
        s2.files = s.files ++ [s.filename] ∧ s2.fs = s.fs ∧
        s2.filename = s.filename := by
  intro ims
  induction ims with
  | nil =>
    intro s f rest _
    refine ⟨{ s with files := s.files ++ [s.filename] }, ?_, by simp, rfl, rfl, rfl, rfl⟩
    simp [runSession, emptyMat]
  | cons im ims ih =>
    intro s f rest h
    have him : im.isEmpty = false := h im (by simp)
    obtain ⟨s2, h1, h2, h3, h4, h5, h6⟩ :=
      ih (writeFrame s (f + 1) im) (f + 1) rest (fun m hm => h m (by simp [hm]))
    refine ⟨s2, ?_, ?_, ?_, ?_, ?_, ?_⟩
    · rw [List.cons_append, runSession, if_neg (by simp [him]), if_pos rfl]
      exact h1
    · rw [h2]; simp [writeFrame]
    · rw [h3]; simp [writeFrame]
    · rw [h4]; simp [writeFrame]
    · rw [h5]; simp [writeFrame]
    · rw [h6]; simp [writeFrame]

end SaveVideo

namespace SaveVideo

/-- itsFileNum never decreases across one pass of the inner loop. -/
theorem runSession_fileNum_mono (cfg : String) (ok : Bool) :
    ∀ (items : List Mat) (s : WorkerState) (w : Bool) (f : Nat),
      s.fileNum ≤ (runSession cfg ok s w f items).fileNumOf := by
  intro items
  induction items with
  | nil =>
    intro s w f
    simp [runSession, SessionResult.fileNumOf, SessionResult.stateOf]
  | cons im rest ih =>
    intro s w f
    by_cases hemp : im.isEmpty = true
    · cases w <;>
        simp [runSession, hemp, SessionResult.fileNumOf, SessionResult.stateOf]
    · cases w with
      | false =>
        rw [runSession, if_neg (by simp [hemp])]
        by_cases hcfg : cfg = ""
        · simp [hcfg, SessionResult.fileNumOf, SessionResult.stateOf]
        · rw [if_neg (by simp), if_neg hcfg]
          cases hpr : probeFrom s.fs (snprintf6 (resolvePath cfg)) s.fileNum with
          | none => simp [SessionResult.fileNumOf, SessionResult.stateOf]
          | some p =>
            obtain ⟨nm, k⟩ := p
            have hk : s.fileNum ≤ k :=
              (probeFrom_spec s.fs _ s.fileNum nm k hpr).2.2
            dsimp only
            by_cases hok : ok = true
            · rw [if_pos hok]
              have h2 := ih (writeFrame (openState s nm k) (f + 1) im) true (f + 1)
              have h3 : (writeFrame (openState s nm k) (f + 1) im).fileNum = k := by
                simp [writeFrame, openState]
              omega
            · rw [if_neg hok]
              simp [SessionResult.fileNumOf, SessionResult.stateOf]
              omega
      | true =>
        rw [runSession, if_neg (by simp [hemp]), if_pos rfl]
        have h2 := ih (writeFrame s (f + 1) im) true (f + 1)
        have h3 : (writeFrame s (f + 1) im).fileNum = s.fileNum := by
          simp [writeFrame]
        omega

/-- itsFileNum never decreases across the outer loop. -/
theorem runOuter_fileNum_mono (cfg : String) (ok : Bool) :
    ∀ (fuel : Nat) (s : WorkerState) (items : List Mat),
      s.fileNum ≤ (runOuter cfg ok fuel s items).fileNumOf := by
  intro fuel
  induction fuel with
  | zero => intro s items; simp [runOuter, RunResult.fileNumOf, RunResult.stateOf]
  | succ n ih =>
    intro s items
    rw [runOuter]
    have h1 := runSession_fileNum_mono cfg ok items s false 0
    cases hres : runSession cfg ok s false 0 items with
    | starved s2 w =>
      rw [hres] at h1
      simpa [RunResult.fileNumOf, RunResult.stateOf, SessionResult.fileNumOf,
        SessionResult.stateOf] using h1
    | fatal s2 m =>
      rw [hres] at h1
      simpa [RunResult.fileNumOf, RunResult.stateOf, SessionResult.fileNumOf,
        SessionResult.stateOf] using h1
    | closed s2 rest =>
      rw [hres] at h1
      simp only [SessionResult.fileNumOf, SessionResult.stateOf] at h1
      have h2 := ih { s2 with fileNum := s2.fileNum + 1 } rest
      simp only [RunResult.fileNumOf, RunResult.stateOf] at h2 ⊢
      omega

end SaveVideo

namespace SaveVideo

/-- Every frame the inner loop hands to the encoder beyond what was already
written is a non-sentinel frame. -/
theorem runSession_written_extends (cfg : String) (ok : Bool) :
    ∀ (items : List Mat) (s : WorkerState) (w : Bool) (f : Nat),
      ∃ new, (runSession cfg ok s w f items).writtenOf = s.written ++ new ∧
        ∀ m ∈ new, m.isEmpty = false := by
  intro items
  induction items with
  | nil =>
    intro s w f
    exact ⟨[], by simp [runSession, SessionResult.writtenOf, SessionResult.stateOf],
      by simp⟩
  | cons im rest ih =>
    intro s w f
    by_cases hemp : im.isEmpty = true
    · refine ⟨[], ?_, by simp⟩
      cases w <;>
        simp [runSession, hemp, SessionResult.writtenOf, SessionResult.stateOf]
    · have hemp2 : im.isEmpty = false := by simpa using hemp
      cases w with
      | false =>
        rw [runSession, if_neg (by simp [hemp])]
        by_cases hcfg : cfg = ""
        · exact ⟨[], by simp [hcfg, SessionResult.writtenOf, SessionResult.stateOf],
            by simp⟩
        · rw [if_neg (by simp), if_neg hcfg]
          cases hpr : probeFrom s.fs (snprintf6 (resolvePath cfg)) s.fileNum with
          | none =>
            exact ⟨[], by simp [SessionResult.writtenOf, SessionResult.stateOf],
              by simp⟩
          | some p =>
            obtain ⟨nm, k⟩ := p
            dsimp only
            by_cases hok : ok = true
            · rw [if_pos hok]
              obtain ⟨new, h1, h2⟩ :=
                ih (writeFrame (openState s nm k) (f + 1) im) true (f + 1)
              refine ⟨im :: new, ?_, ?_⟩
              · rw [h1]; simp [writeFrame, openState]
              · intro m hm
                rcases List.mem_cons.mp hm with hm | hm
                · subst hm; exact hemp2
                · exact h2 m hm
            · rw [if_neg hok]
              exact ⟨[], by simp [SessionResult.writtenOf, SessionResult.stateOf],
                by simp⟩
      | true =>
        rw [runSession, if_neg (by simp [hemp]), if_pos rfl]
        obtain ⟨new, h1, h2⟩ := ih (writeFrame s (f + 1) im) true (f + 1)
        refine ⟨im :: new, ?_, ?_⟩
        · rw [h1]; simp [writeFrame]
        · intro m hm
          rcases List.mem_cons.mp hm with hm | hm
          · subst hm; exact hemp2
          · exact h2 m hm

/-- When the inner loop closes a session, the items it consumed are exactly
the non-sentinel frames that preceded the sentinel, and everything after the
sentinel is left in the queue: the sentinel is the last item consumed. -/
theorem runSession_closed_split (cfg : String) (ok : Bool) :
    ∀ (items : List Mat) (s : WorkerState) (w : Bool) (f : Nat)
      (s2 : WorkerState) (rest : List Mat),
      runSession cfg ok s w f items = .closed s2 rest →
      ∃ pre, items = pre ++ emptyMat :: rest ∧ ∀ m ∈ pre, m.isEmpty = false := by
  intro items
  induction items with
  | nil => intro s w f s2 rest h; simp [runSession] at h
  | cons im tl ih =>
    intro s w f s2 rest h
    by_cases hemp : im.isEmpty = true
    · have him : im = emptyMat := by
        cases im with
        | nil => rfl
        | cons a as => simp [List.isEmpty] at hemp
      rw [runSession, if_pos hemp] at h
      simp only [SessionResult.closed.injEq] at h
      refine ⟨[], ?_, by simp⟩
      rw [him, h.2]
      simp
    · have hemp2 : im.isEmpty = false := by simpa using hemp
      cases w with
      | false =>
        rw [runSession, if_neg (by simp [hemp])] at h
        by_cases hcfg : cfg = ""
        · rw [if_pos hcfg] at h; simp at h
        · rw [if_neg (by simp), if_neg hcfg] at h
          cases hpr : probeFrom s.fs (snprintf6 (resolvePath cfg)) s.fileNum with
          | none => rw [hpr] at h; simp at h
          | some p =>
            obtain ⟨nm, k⟩ := p
            rw [hpr] at h
            dsimp only at h
            by_cases hok : ok = true
            · rw [if_pos hok] at h
              obtain ⟨pre, h1, h2⟩ := ih _ true (f + 1) s2 rest h
              refine ⟨im :: pre, by simp [h1], ?_⟩
              intro m hm
              rcases List.mem_cons.mp hm with hm | hm
              · subst hm; exact hemp2
              · exact h2 m hm
            · rw [if_neg hok] at h; simp at h
      | true =>
        rw [runSession, if_neg (by simp [hemp]), if_pos rfl] at h
        obtain ⟨pre, h1, h2⟩ := ih _ true (f + 1) s2 rest h
        refine ⟨im :: pre, by simp [h1], ?_⟩
        intro m hm
        rcases List.mem_cons.mp hm with hm | hm
        · subst hm; exact hemp2
        · exact h2 m hm

end SaveVideo

namespace SaveVideo

/-- Scheduler choice true runs the worker. -/
theorem sysStep_true (s : Sys) : sysStep true s = workerStep s := by simp [sysStep]

/-- Scheduler choice false runs the stop handler. -/
theorem sysStep_false (s : Sys) : sysStep false s = stopStep s := by simp [sysStep]

/-- One scheduler step preserves the property that a returned stop handler
implies an empty queue: the stop handler only returns when it observes fill
level zero, and afterwards nobody refills the queue. -/
theorem sysStep_drain (b : Bool) (s : Sys)
    (h : s.spc = SPC.returned → s.buf = []) :
    (sysStep b s).spc = SPC.returned → (sysStep b s).buf = [] := by
  intro hr
  cases b with
  | true =>
    rw [sysStep_true] at hr ⊢
    cases hw : s.wpc with
    | atPop =>
      cases hb : s.buf with
      | nil => simp [workerStep, hw, hb]
      | cons im rest =>
        simp only [workerStep, hw, hb] at hr
        have := h hr
        rw [hb] at this
        simp at this
    | atCheck im =>
      by_cases hemp : im.isEmpty = true
      · simp only [workerStep, hw, if_pos hemp] at hr ⊢
        exact h hr
      · simp only [workerStep, hw, if_neg hemp] at hr ⊢
        exact h hr
    | atClose =>
      simp only [workerStep, hw] at hr ⊢
      exact h hr
    | idle =>
      simp only [workerStep, hw] at hr ⊢
      exact h hr
  | false =>
    rw [sysStep_false] at hr ⊢
    cases hs : s.spc with
    | beforePush => simp [stopStep, hs] at hr
    | polling =>
      by_cases hb : s.buf = []
      · simp only [stopStep, hs, if_pos hb] at hr ⊢
        exact hb
      · simp only [stopStep, hs, if_neg hb] at hr
        exact absurd hr (by simp [hs])
    | returned =>
      simp only [stopStep, hs] at hr ⊢
      exact h hs

/-- The drain property is preserved along any schedule. -/
theorem runSys_drain :
    ∀ (sched : List Bool) (s : Sys), (s.spc = SPC.returned → s.buf = []) →
      (runSys sched s).spc = SPC.returned → (runSys sched s).buf = [] := by
  intro sched
  induction sched with
  | nil => intro s h; exact h
  | cons b bs ih =>
    intro s h
    exact ih (sysStep b s) (sysStep_drain b s h)

end SaveVideo

namespace SaveVideo

/-- C1: for every sequence of frames pushed to the queue while Recording
State is true and the queue's filled size stays at or under the soft
capacity, the acquisition path enqueues exactly those frames and the worker
writes exactly those frames to the encoder, in exactly the push order, with
no frame lost and no frame duplicated. -/
theorem queue_preserves_order_and_content (cfg : String) (hcfg : cfg ≠ "")
    (s : WorkerState) (ims : List Mat)
    (hreal : ∀ m ∈ ims, m.isEmpty = false)
    (hcap : ims.length ≤ 1000)
    (nm : String) (k : Nat)
    (hpr : probeFrom s.fs (snprintf6 (resolvePath cfg)) s.fileNum = some (nm, k)) :
    pushAll ims [] = ims ∧
    (runSession cfg true s false 0 (pushAll ims [] ++ [emptyMat])).writtenOf =
      s.written ++ ims := by
  have hpush : pushAll ims [] = ims :=
    pushAll_no_drop ims [] (by simpa using Nat.le_succ_of_le hcap)
  refine ⟨hpush, ?_⟩
  rw [hpush]
  cases ims with
  | nil => simp [runSession, emptyMat, SessionResult.writtenOf, SessionResult.stateOf]
  | cons im tl =>
    have him : im.isEmpty = false := hreal im (by simp)
    rw [List.cons_append, runSession, if_neg (by simp [him]), if_neg (by simp),
      if_neg hcfg, hpr]
    dsimp only
    rw [if_pos rfl]
    obtain ⟨s2, h1, h2, _, _, _, _⟩ :=
      runSession_open_spec cfg true tl (writeFrame (openState s nm k) (0 + 1) im)
        (0 + 1) [] (fun m hm => hreal m (by simp [hm]))
    rw [show tl ++ [emptyMat] = tl ++ emptyMat :: [] from rfl, h1]
    simp only [SessionResult.writtenOf, SessionResult.stateOf]
    rw [h2]
    simp [writeFrame, openState]

/-- Witness for C1 at a concrete three-frame recording. -/
theorem queue_preserves_order_and_content_witness :
    ("video%06d.avi" ≠ "" ∧
     (∀ m ∈ ([[1], [2], [3]] : List Mat), m.isEmpty = false) ∧
     ([[1], [2], [3]] : List Mat).length ≤ 1000 ∧
     probeFrom initState.fs (snprintf6 (resolvePath "video%06d.avi"))
         initState.fileNum =
       some ("/jevois/data/savevideo/video000000.avi", 0)) ∧
    (pushAll [[1], [2], [3]] [] = [[1], [2], [3]] ∧
     (runSession "video%06d.avi" true initState false 0
         (pushAll [[1], [2], [3]] [] ++ [emptyMat])).writtenOf =
       initState.written ++ [[1], [2], [3]]) :=
  ⟨⟨by decide, by decide, by decide, by decide⟩,
   queue_preserves_order_and_content "video%06d.avi" (by decide) initState
     [[1], [2], [3]] (by decide) (by decide)
     "/jevois/data/savevideo/video000000.avi" 0 (by decide)⟩

/-- C2 counterexample: a stop issued with zero frames recorded (the worker
pops only the sentinel the stop pushed) creates no file, yet itsFileNum moves
from 0 to 1, so the claim that the File Sequence Counter is not incremented
by such a stop is false. -/
theorem stop_without_frames_increments_counter_cex :
    parseSerial "stop" true [] = some (false, [emptyMat], ["SAVESTOP"]) ∧
    (runOuter "video%06d.avi" true 1 initState [emptyMat]).filesOf = [] ∧
    (runOuter "video%06d.avi" true 1 initState [emptyMat]).fileNumOf = 1 ∧
    ¬ (runOuter "video%06d.avi" true 1 initState [emptyMat]).fileNumOf =
        initState.fileNum := by
  refine ⟨by decide, by decide, by decide, by decide⟩

/-- C2 amended: if a stop command is issued for a session in which no frame
was ever recorded, no output file is created, but the File Sequence Counter
is incremented by one by that stop (line 286 runs on every inner-loop
exit). -/
theorem stop_without_frames_no_file_but_counter_advances
    (cfg : String) (ok : Bool) (s : WorkerState) :
    (runOuter cfg ok 1 s [emptyMat]).filesOf = s.files ∧
    (runOuter cfg ok 1 s [emptyMat]).fileNumOf = s.fileNum + 1 := by
  constructor <;>
    simp [runOuter, runSession, emptyMat, RunResult.filesOf, RunResult.fileNumOf,
      RunResult.stateOf]

/-- C4: the probing loop never selects an existing file, and with
video000000.avi already on disk and the counter at 0, two consecutive
one-frame sessions produce video000001.avi and then video000002.avi under the
PATHPREFIX directory. -/
theorem probe_never_overwrites :
    (∀ (fs : List String) (name : Nat → String) (start : Nat) (nm : String)
        (k : Nat), probeFrom fs name start = some (nm, k) →
        fs.contains nm = false ∧ nm = name k ∧ start ≤ k) ∧
    (runOuter "video%06d.avi" true 2
        { initState with fs := ["/jevois/data/savevideo/video000000.avi"] }
        [[1], emptyMat, [2], emptyMat]).filesOf =
      ["/jevois/data/savevideo/video000001.avi",
       "/jevois/data/savevideo/video000002.avi"] := by
  constructor
  · intro fs name start nm k h
    exact probeFrom_spec fs name start nm k h
  · decide

/-- Witness for C4's probing soundness at a concrete disk state. -/
theorem probe_never_overwrites_witness :
    (["a"].contains "b" = false ∧ "b" = (fun _ => "b") 5 ∧ 5 ≤ 5) :=
  probe_never_overwrites.1 ["a"] (fun _ => "b") 5 "b" 5 (by decide)

/-- C5: itsFileNum never decreases: neither across one pass of the inner loop
nor across any number of sessions of the outer loop. -/
theorem fileNum_monotone (cfg : String) (ok : Bool) (fuel : Nat)
    (s : WorkerState) (items : List Mat) :
    s.fileNum ≤ (runOuter cfg ok fuel s items).fileNumOf ∧
    s.fileNum ≤ (runSession cfg ok s false 0 items).fileNumOf :=
  ⟨runOuter_fileNum_mono cfg ok fuel s items,
   runSession_fileNum_mono cfg ok items s false 0⟩

end SaveVideo

namespace SaveVideo

/-- C3 counterexample: under the schedule where the stop handler pushes the
sentinel, the worker pops it, and the stop handler then polls, the stop
handler returns while the writer is still open and the file is not yet
finalized: the claim that the file is finalized at the moment stop returns is
false. -/
theorem stop_return_before_finalize_cex :
    (runSys [false, true, false] ⟨[], .atPop, true, false, .beforePush⟩).spc =
      .returned ∧
    (runSys [false, true, false] ⟨[], .atPop, true, false, .beforePush⟩).finalized =
      false ∧
    (runSys [false, true, false] ⟨[], .atPop, true, false, .beforePush⟩).writerOpen =
      true := by
  refine ⟨by decide, by decide, by decide⟩

/-- C3 amended: the stop command handler returns only after the queue's
filled size has reached zero (under every schedule, a returned stop handler
implies an empty queue), and the session's output file is finalized by the
worker's subsequent inner-loop exit step, which may run only after stop has
already returned. -/
theorem stop_returns_after_drain (sched : List Bool) (s : Sys)
    (h : s.spc = SPC.returned → s.buf = []) (t : Sys)
    (ht : t.wpc = WPC.atClose) :
    ((runSys sched s).spc = SPC.returned → (runSys sched s).buf = []) ∧
    (workerStep t).finalized = true := by
  refine ⟨runSys_drain sched s h, ?_⟩
  simp [workerStep, ht]

/-- Witness for C3 amended: a full stop handshake from the racy initial
state. -/
theorem stop_returns_after_drain_witness :
    ((runSys [false, true, true, false]
        ⟨[], .atPop, true, false, .beforePush⟩).spc = SPC.returned →
      (runSys [false, true, true, false]
        ⟨[], .atPop, true, false, .beforePush⟩).buf = []) ∧
    (workerStep ⟨[], .atClose, true, false, .polling⟩).finalized = true :=
  stop_returns_after_drain [false, true, true, false]
    ⟨[], .atPop, true, false, .beforePush⟩ (by decide)
    ⟨[], .atClose, true, false, .polling⟩ (by decide)

/-- C6: the end-of-stream sentinel is never written to the encoder (every
frame the worker hands to the encoder is non-empty), and once pushed it is
the last item the worker consumes for that session: everything consumed
before it is a real frame and everything after it is left for the next
session. -/
theorem sentinel_never_written_and_last (cfg : String) (ok : Bool)
    (items : List Mat) (s : WorkerState) (w : Bool) (f : Nat)
    (s2 : WorkerState) (rest : List Mat)
    (hclosed : runSession cfg ok s w f items = .closed s2 rest) :
    (∃ new, (runSession cfg ok s w f items).writtenOf = s.written ++ new ∧
        ∀ m ∈ new, m.isEmpty = false) ∧
    (∃ pre, items = pre ++ emptyMat :: rest ∧ ∀ m ∈ pre, m.isEmpty = false) :=
  ⟨runSession_written_extends cfg ok items s w f,
   runSession_closed_split cfg ok items s w f s2 rest hclosed⟩

/-- Witness for C6 at a concrete sentinel-only session. -/
theorem sentinel_never_written_and_last_witness :
    (∃ new, (runSession "video%06d.avi" true initState false 0
        [emptyMat]).writtenOf = initState.written ++ new ∧
        ∀ m ∈ new, m.isEmpty = false) ∧
    (∃ pre, [emptyMat] = pre ++ emptyMat :: ([] : List Mat) ∧
        ∀ m ∈ pre, m.isEmpty = false) :=
  sentinel_never_written_and_last "video%06d.avi" true [emptyMat] initState
    false 0 initState [] (by decide)

/-- C7: on an acquisition cycle with Recording State true, a queue filled
over the soft capacity of 1000 makes the frame be dropped with a logged
warning and no push; otherwise the frame is pushed; either way the call
returns normally. -/
theorem over_capacity_drops_frame (buf : List Mat) (im : Mat) :
    (buf.length > 1000 →
      process true buf im =
        ⟨buf, .dropped,
         ["Image queue too large, video writer cannot keep up - DROPPING FRAME"]⟩) ∧
    (¬ buf.length > 1000 →
      process true buf im = ⟨buf ++ [im], .pushed, []⟩) := by
  constructor
  · intro h; simp [process, h]
  · intro h; simp [process, h]

/-- Witness for C7 on a queue of 1001 frames and on an empty queue. -/
theorem over_capacity_drops_frame_witness :
    process true (List.replicate 1001 ([] : Mat)) [5] =
      ⟨List.replicate 1001 ([] : Mat), .dropped,
       ["Image queue too large, video writer cannot keep up - DROPPING FRAME"]⟩ ∧
    process true [] [5] = ⟨[[5]], .pushed, []⟩ :=
  ⟨(over_capacity_drops_frame _ _).1 (by rw [List.length_replicate]; omega),
   (over_capacity_drops_frame _ _).2 (by simp)⟩

/-- C8: on an acquisition cycle with Recording State false, the frame is not
enqueued and the queue is left unchanged by the processing function. -/
theorem not_saving_leaves_queue (buf : List Mat) (im : Mat) :
    process false buf im = ⟨buf, .ignored, []⟩ := by
  simp [process]

/-- C9: at Session-Open an empty configured filename is fatal before anything
is written, a failed encoder open is fatal after the probe assigned
itsFilename and itsFileNum but before anything is written, and a fatal inner
loop makes the worker's outer loop exit with the error: no retry. -/
theorem session_open_fatal_errors (cfg : String) (s : WorkerState)
    (im : Mat) (rest : List Mat) (him : im.isEmpty = false) :
    (cfg = "" →
      ∀ ok, runSession cfg ok s false 0 (im :: rest) =
        .fatal s "Cannot save to an empty filename") ∧
    (∀ nm k, cfg ≠ "" →
      probeFrom s.fs (snprintf6 (resolvePath cfg)) s.fileNum = some (nm, k) →
      runSession cfg false s false 0 (im :: rest) =
        .fatal { s with fileNum := k, filename := nm }
          ("Failed to open video encoder for file [" ++ nm ++ "]")) ∧
    (∀ ok s2 m items fuel, runSession cfg ok s false 0 items = .fatal s2 m →
      runOuter cfg ok (fuel + 1) s items = .fatalR s2 m) := by
  refine ⟨?_, ?_, ?_⟩
  · intro hcfg ok
    rw [runSession, if_neg (by simp [him]), if_neg (by simp), if_pos hcfg]
  · intro nm k hcfg hpr
    rw [runSession, if_neg (by simp [him]), if_neg (by simp), if_neg hcfg, hpr]
    dsimp only
    rw [if_neg (by simp)]
  · intro ok s2 m items fuel h
    simp only [runOuter, h]

/-- Witness for C9 on an empty filename and on a failing encoder open. -/
theorem session_open_fatal_errors_witness :
    runSession "" true initState false 0 [[3]] =
      .fatal initState "Cannot save to an empty filename" ∧
    runSession "video%06d.avi" false initState false 0 [[3]] =
      .fatal { initState with
                fileNum := 0,
                filename := "/jevois/data/savevideo/video000000.avi" }
        ("Failed to open video encoder for file [" ++
          "/jevois/data/savevideo/video000000.avi" ++ "]") ∧
    runOuter "" true 1 initState [[3]] =
      .fatalR initState "Cannot save to an empty filename" :=
  ⟨(session_open_fatal_errors "" initState [3] [] (by decide)).1 rfl true,
   (session_open_fatal_errors "video%06d.avi" initState [3] [] (by decide)).2.1
     "/jevois/data/savevideo/video000000.avi" 0 (by decide) (by decide),
   (session_open_fatal_errors "" initState [3] [] (by decide)).2.2 true initState
     "Cannot save to an empty filename" [[3]] 0
     ((session_open_fatal_errors "" initState [3] [] (by decide)).1 rfl true)⟩

/-- C10: whenever the worker pops the sentinel and closes a session, the
outer loop continues from a state whose itsFileNum is exactly one more than
the session left it, and a sentinel popped with no frame before it closes the
session with the worker state untouched, so every drained stop advances the
counter by one even when no encoder was opened. -/
theorem sentinel_pop_increments_fileNum (cfg : String) (ok : Bool) (n : Nat)
    (s s2 : WorkerState) (items rest : List Mat)
    (h : runSession cfg ok s false 0 items = .closed s2 rest) :
    runOuter cfg ok (n + 1) s items =
      runOuter cfg ok n { s2 with fileNum := s2.fileNum + 1 } rest ∧
    runSession cfg ok s false 0 (emptyMat :: rest) = .closed s rest := by
  constructor
  · simp only [runOuter, h]
  · simp [runSession, emptyMat]

/-- Witness for C10 on a sentinel-only drain. -/
theorem sentinel_pop_increments_fileNum_witness :
    runOuter "video%06d.avi" true 1 initState [emptyMat] =
      runOuter "video%06d.avi" true 0
        { initState with fileNum := initState.fileNum + 1 } [] ∧
    runSession "video%06d.avi" true initState false 0 (emptyMat :: []) =
      .closed initState [] :=
  sentinel_pop_increments_fileNum "video%06d.avi" true 0 initState initState
    [emptyMat] [] (by decide)

end SaveVideo
